import Mathlib

/-!
Shallow embedding of cf4ocl's abstract wrapper module
(`src/lib/abstract_wrapper.c`).

The module maintains a process-wide table (`wrappers`, a `GHashTable`
with direct/identity keys) mapping each wrapped OpenCL object (a native
handle) to its unique in-process wrapper.  Wrappers are reference
counted; the `unref` that drops the count to zero performs teardown
(native release, attribute-cache destruction, registry removal, field
release, deallocation).  Attribute queries go through a two-phase
size-probe / value-fetch protocol with a per-wrapper cache.

Modelling choices:
* `GHashTable` with direct keys is modelled by an association list with
  `Nat` keys (`tableLookup` / `tableInsert` / `tableRemove`);
  `g_hash_table_insert` and `g_hash_table_replace` both replace the
  value stored under an existing key, which `tableInsert` mirrors.
* Pointers are modelled by a heap: wrapper objects live in
  `WState.heap`, keyed by an address (`Nat`); `g_slice_alloc0` hands out
  the fresh address `nextAddr`.  Pointer identity is address equality.
* Machine integers: `ref_count` is a C `int` manipulated with
  `g_atomic_int_inc` / `g_atomic_int_dec_and_test`; it is modelled as
  `Int` (decrementing 0 gives -1, not a destroy).  OpenCL status codes
  are `Int`, with `CL_SUCCESS = 0`.
* The OpenCL `clGet*Info`-style callback (`ccl_wrapper_info_fp`) is a
  pure oracle `InfoFun`; teardown side effects are recorded as a trace
  of `TEvent`s in the order the C code performs them.
-/

/-- Status code returned by successful OpenCL calls. -/
def CL_SUCCESS : Int := 0

/-- Lookup in an association table with `Nat` keys
(`g_hash_table_lookup` with direct keys). -/
def tableLookup {α : Type} : List (Nat × α) → Nat → Option α
  | [], _ => none
  | p :: ps, k => if p.1 = k then some p.2 else tableLookup ps k

/-- Insert-or-replace in an association table
(`g_hash_table_insert` / `g_hash_table_replace` with direct keys:
the value stored under an existing key is replaced, otherwise a new
entry is added). -/
def tableInsert {α : Type} : List (Nat × α) → Nat → α → List (Nat × α)
  | [], k, v => [(k, v)]
  | p :: ps, k, v => if p.1 = k then (k, v) :: ps else p :: tableInsert ps k v

/-- Remove the entry stored under a key (`g_hash_table_remove`). -/
def tableRemove {α : Type} : List (Nat × α) → Nat → List (Nat × α)
  | [], _ => []
  | p :: ps, k => if p.1 = k then ps else p :: tableRemove ps k

/-- Key membership test (`g_hash_table_contains`). -/
def tableContains {α : Type} (l : List (Nat × α)) (k : Nat) : Bool :=
  (tableLookup l k).isSome

/-- The `CCLWrapperInfo` struct: one retrieved attribute blob.
`value` is the byte buffer (`none` models a NULL pointer, as set by
`ccl_wrapper_info_new` when `size == 0`); `size` its length in bytes. -/
structure CCLWrapperInfo where
  value : Option (List Nat)
  size : Nat
deriving DecidableEq

/-- The `CCLWrapper` struct: the wrapped OpenCL object (a native
handle, modelled as a nonzero `Nat`; 0 models NULL), the atomic
reference count, and the lazily created info table (`none` models a
NULL `GHashTable*`). -/
structure CCLWrapper where
  cl_object : Nat
  ref_count : Int
  info : Option (List (Nat × CCLWrapperInfo))
deriving DecidableEq

/-- The wrapper's info table, reading a NULL table as empty. -/
def infoTable (w : CCLWrapper) : List (Nat × CCLWrapperInfo) :=
  match w.info with
  | none => []
  | some t => t

/-- `ccl_wrapper_info_new`: allocate a blob of `size` bytes
(zero-initialized via `g_slice_alloc0`); a NULL value pointer when
`size` is 0. -/
def ccl_wrapper_info_new (size : Nat) : CCLWrapperInfo :=
  { value := if 0 < size then some (List.replicate size 0) else none
    size := size }

/-- `ccl_wrapper_add_info`: initialize the wrapper's info table if it
is NULL, then store `info` under `param_name`
(`g_hash_table_replace`). -/
def ccl_wrapper_add_info (wrapper : CCLWrapper) (param_name : Nat)
    (info : CCLWrapperInfo) : CCLWrapper :=
  { wrapper with info := some (tableInsert (infoTable wrapper) param_name info) }

/-- The `ccl_wrapper_info_fp` callback as a pure oracle.  Arguments:
the queried `cl_object`, the second `cl_object` when the query is
relative to a pair of handles (`none` otherwise), `param_name`,
`param_value_size`, and whether a value buffer is supplied.  Returns
the OpenCL status, the reported size (`param_value_size_ret`), and the
bytes written to the supplied buffer. -/
abbrev InfoFun := Nat → Option Nat → Nat → Nat → Bool → Int × Nat × List Nat

/-- Result of `ccl_wrapper_get_info`: the returned `CCLWrapperInfo*`
(`none` for NULL), the wrapper with its possibly updated info table,
whether `*err` was set, and how many native query episodes (entries
into the query branch, each performing one size probe and at most one
value fetch) were performed. -/
structure GetInfoResult where
  info : Option CCLWrapperInfo
  wrapper : CCLWrapper
  errSet : Bool
  queries : Nat
deriving DecidableEq

/-- The condition under which `ccl_wrapper_get_info` queries the OpenCL
object instead of reading the cache: cache use not requested, or info
table not yet initialized, or requested info not in the table. -/
def ccl_need_query (wrapper1 : CCLWrapper) (param_name : Nat)
    (use_cache : Bool) : Bool :=
  !use_cache || wrapper1.info.isNone ||
    !(tableContains (infoTable wrapper1) param_name)

/-- `ccl_wrapper_get_info`: if the cache answers (`use_cache` and the
info table contains `param_name`), return the cached blob with no
native call; otherwise perform the two-phase query: size probe (fails
on non-success status or a reported size of 0), allocate a blob of the
reported size, value fetch (fails on non-success status), store the
blob in the info table and return it.  On failure NULL is returned and
`*err` is set; the info table is not touched. -/
def ccl_wrapper_get_info (wrapper1 : CCLWrapper) (wrapper2 : Option CCLWrapper)
    (param_name : Nat) (info_fun : InfoFun) (use_cache : Bool) : GetInfoResult :=
  let obj2 := wrapper2.map CCLWrapper.cl_object
  if ccl_need_query wrapper1 param_name use_cache then
    -- size probe: info_fun(cl_object, param_name, 0, NULL, &size_ret)
    let probe := info_fun wrapper1.cl_object obj2 param_name 0 false
    if probe.1 ≠ CL_SUCCESS then
      { info := none, wrapper := wrapper1, errSet := true, queries := 1 }
    else if probe.2.1 = 0 then
      { info := none, wrapper := wrapper1, errSet := true, queries := 1 }
    else
      let blob0 := ccl_wrapper_info_new probe.2.1
      -- value fetch: info_fun(cl_object, param_name, size_ret, info->value, NULL)
      let fetch := info_fun wrapper1.cl_object obj2 param_name probe.2.1 true
      if fetch.1 ≠ CL_SUCCESS then
        { info := none, wrapper := wrapper1, errSet := true, queries := 1 }
      else
        -- the fetch writes into the size_ret-byte zeroed buffer
        let blob := { blob0 with value := some (List.takeD probe.2.1 fetch.2.2 0) }
        { info := some blob
          wrapper := ccl_wrapper_add_info wrapper1 param_name blob
          errSet := false, queries := 1 }
  else
    { info := tableLookup (infoTable wrapper1) param_name
      wrapper := wrapper1, errSet := false, queries := 0 }

/-- Result of `ccl_wrapper_get_info_value`: the returned `void*`
(`none` for NULL) plus the inner call's wrapper state, error flag and
query count. -/
structure GetValueResult where
  value : Option (List Nat)
  wrapper : CCLWrapper
  errSet : Bool
  queries : Nat
deriving DecidableEq

/-- Result of `ccl_wrapper_get_info_size`: the returned size (0 on
error) plus the inner call's wrapper state, error flag and query
count. -/
structure GetSizeResult where
  size : Nat
  wrapper : CCLWrapper
  errSet : Bool
  queries : Nat
deriving DecidableEq

/-- `ccl_wrapper_get_info_value`: one inner `ccl_wrapper_get_info`
call; returns `diw->value` if the result `diw` is not NULL, NULL
otherwise. -/
def ccl_wrapper_get_info_value (wrapper1 : CCLWrapper)
    (wrapper2 : Option CCLWrapper) (param_name : Nat) (info_fun : InfoFun)
    (use_cache : Bool) : GetValueResult :=
  let diw := ccl_wrapper_get_info wrapper1 wrapper2 param_name info_fun use_cache
  { value := match diw.info with
      | some d => d.value
      | none => none
    wrapper := diw.wrapper, errSet := diw.errSet, queries := diw.queries }

/-- `ccl_wrapper_get_info_size`: one inner `ccl_wrapper_get_info`
call; returns `diw->size` if the result `diw` is not NULL, 0
otherwise. -/
def ccl_wrapper_get_info_size (wrapper1 : CCLWrapper)
    (wrapper2 : Option CCLWrapper) (param_name : Nat) (info_fun : InfoFun)
    (use_cache : Bool) : GetSizeResult :=
  let diw := ccl_wrapper_get_info wrapper1 wrapper2 param_name info_fun use_cache
  { size := match diw.info with
      | some d => d.size
      | none => 0
    wrapper := diw.wrapper, errSet := diw.errSet, queries := diw.queries }

/-- Process-wide state: the heap of allocated wrapper objects keyed by
address (`g_slice_alloc0` returns the fresh address `nextAddr`), and
the static `wrappers` table mapping each wrapped `cl_object` to the
address of its wrapper (`none` models the NULL `GHashTable*`). -/
structure WState where
  heap : List (Nat × CCLWrapper)
  nextAddr : Nat
  wrappers : Option (List (Nat × Nat))
deriving DecidableEq

/-- The static `wrappers` table, reading NULL as empty. -/
def regTable (s : WState) : List (Nat × Nat) :=
  match s.wrappers with
  | none => []
  | some t => t

/-- The initial process state: nothing allocated, `wrappers == NULL`. -/
def initState : WState :=
  { heap := [], nextAddr := 0, wrappers := none }

/-- `ccl_wrapper_ref`: atomically increment the wrapper's reference
count.  A NULL wrapper is rejected by `g_return_if_fail`; a dangling
address is undefined behaviour in C and modelled as a no-op. -/
def ccl_wrapper_ref (s : WState) (wrapper : Nat) : WState :=
  match tableLookup s.heap wrapper with
  | none => s
  | some w =>
    { s with heap := tableInsert s.heap wrapper { w with ref_count := w.ref_count + 1 } }

/-- `ccl_wrapper_new`: fails on a NULL `cl_object`; otherwise, under
the `wrappers` lock: initialize the `wrappers` table if NULL, look up
`cl_object`; if a wrapper exists reuse it, else zero-allocate a wrapper
of `size` bytes, set its `cl_object`, and insert it into the table;
finally increment the returned wrapper's reference count.  Returns the
address of the wrapper (`none` for NULL). -/
def ccl_wrapper_new (s : WState) (cl_object : Nat) (size : Nat) :
    Option Nat × WState :=
  if cl_object = 0 then (none, s)
  else
    let tbl := regTable s
    match tableLookup tbl cl_object with
    | some a =>
      let s1 : WState := { s with wrappers := some tbl }
      (some a, ccl_wrapper_ref s1 a)
    | none =>
      let a := s.nextAddr
      let w : CCLWrapper := { cl_object := cl_object, ref_count := 0, info := none }
      let s1 : WState :=
        { heap := tableInsert s.heap a w
          nextAddr := a + 1
          wrappers := some (tableInsert tbl cl_object a) }
      (some a, ccl_wrapper_ref s1 a)

/-- Teardown side effects of `ccl_wrapper_unref`, in the order the code
performs them. -/
inductive TEvent where
  /-- `rel_cl_fun(wrapper->cl_object)` returned `st`. -/
  | relCl (cl_object : Nat) (st : Int)
  /-- The destroy notifier `ccl_wrapper_info_destroy` ran on one cached
  blob (triggered by `g_hash_table_destroy` on the info table). -/
  | destroyBlob (param_name : Nat) (info : CCLWrapperInfo)
  /-- `g_hash_table_destroy(wrapper->info)` completed. -/
  | destroyInfoTable
  /-- `g_hash_table_remove(wrappers, wrapper->cl_object)`. -/
  | removeFromRegistry (cl_object : Nat)
  /-- The static `wrappers` table became empty and was destroyed. -/
  | destroyRegistryTable
  /-- `rel_fields_fun(wrapper)` ran. -/
  | relFields
  /-- `g_slice_free1(size, wrapper)` ran. -/
  | freeWrapper
deriving DecidableEq

/-- Result of `ccl_wrapper_unref`: the returned `cl_bool`, the error
recorded in `*err` (the non-success status of `rel_cl_fun`, if any),
the new process state, the teardown event trace. -/
structure UnrefResult where
  destroyed : Bool
  err : Option Int
  state : WState
  events : List TEvent

/-- `ccl_wrapper_unref`: atomically decrement the reference count
(`g_atomic_int_dec_and_test`); if it reaches 0: (1) release the OpenCL
object via `rel_cl_fun` when supplied, recording a non-success status
in `*err` but continuing; (2) destroy the info table (running the
destroy notifier on every cached blob) when it exists; (3) remove the
wrapper from the static `wrappers` table and destroy that table if it
became empty; (4) run `rel_fields_fun` when supplied; (5) free the
wrapper.  Returns CL_TRUE iff this call destroyed the wrapper.
`rel_fields_fun` is modelled by whether it is supplied (its effect is
on subclass state outside this model); `rel_cl_fun` by an optional
status oracle on the wrapped `cl_object`. -/
def ccl_wrapper_unref (s : WState) (wrapper : Nat) (size : Nat)
    (rel_fields_fun : Bool) (rel_cl_fun : Option (Nat → Int)) : UnrefResult :=
  match tableLookup s.heap wrapper with
  | none => { destroyed := false, err := none, state := s, events := [] }
  | some w =>
    if w.ref_count - 1 = 0 then
      -- (1) release the OpenCL wrapped object
      let step1 : Option Int × List TEvent :=
        match rel_cl_fun with
        | none => (none, [])
        | some f =>
          let st := f w.cl_object
          (if st = CL_SUCCESS then none else some st, [TEvent.relCl w.cl_object st])
      -- (2) destroy hash table containing information
      let ev2 : List TEvent :=
        match w.info with
        | none => []
        | some c => c.map (fun pr => TEvent.destroyBlob pr.1 pr.2) ++ [TEvent.destroyInfoTable]
      -- (3) remove wrapper from static table, release static table if empty
      let tbl' := tableRemove (regTable s) w.cl_object
      let step3 : Option (List (Nat × Nat)) × List TEvent :=
        if tbl'.length = 0 then
          (none, [TEvent.removeFromRegistry w.cl_object, TEvent.destroyRegistryTable])
        else
          (some tbl', [TEvent.removeFromRegistry w.cl_object])
      -- (4) destroy remaining wrapper fields
      let ev4 : List TEvent := if rel_fields_fun then [TEvent.relFields] else []
      -- (5) destroy wrapper
      { destroyed := true
        err := step1.1
        state :=
          { heap := tableRemove s.heap wrapper
            nextAddr := s.nextAddr
            wrappers := step3.1 }
        events := step1.2 ++ ev2 ++ step3.2 ++ ev4 ++ [TEvent.freeWrapper] }
    else
      { destroyed := false, err := none
        state :=
          { s with heap := tableInsert s.heap wrapper { w with ref_count := w.ref_count - 1 } }
        events := [] }

/-- `ccl_wrapper_memcheck`: CL_TRUE iff the static `wrappers` table is
NULL. -/
def ccl_wrapper_memcheck (s : WState) : Bool :=
  s.wrappers.isNone

/-- One call in a ref/unref sequence on a fixed wrapper. -/
inductive RCOp where
  | ref
  | unref
deriving DecidableEq

/-- Number of `ref` calls in a sequence. -/
def countRef : List RCOp → Nat
  | [] => 0
  | RCOp.ref :: t => countRef t + 1
  | RCOp.unref :: t => countRef t

/-- Number of `unref` calls in a sequence. -/
def countUnref : List RCOp → Nat
  | [] => 0
  | RCOp.ref :: t => countUnref t
  | RCOp.unref :: t => countUnref t + 1

/-- State after one ref/unref call on the wrapper at address `a`. -/
def applyRC (s : WState) (a : Nat) (size : Nat) (rel_fields_fun : Bool)
    (rel_cl_fun : Option (Nat → Int)) : RCOp → WState
  | RCOp.ref => ccl_wrapper_ref s a
  | RCOp.unref => (ccl_wrapper_unref s a size rel_fields_fun rel_cl_fun).state

/-- Run a ref/unref sequence on the wrapper at address `a`, collecting
the `cl_bool` results of the unref calls in order. -/
def runRC (s : WState) (a : Nat) (size : Nat) (rel_fields_fun : Bool)
    (rel_cl_fun : Option (Nat → Int)) : List RCOp → WState × List Bool
  | [] => (s, [])
  | RCOp.ref :: ops =>
    runRC (ccl_wrapper_ref s a) a size rel_fields_fun rel_cl_fun ops
  | RCOp.unref :: ops =>
    let u := ccl_wrapper_unref s a size rel_fields_fun rel_cl_fun
    let r := runRC u.state a size rel_fields_fun rel_cl_fun ops
    (r.1, u.destroyed :: r.2)

/-- The wrapper at address `a` is allocated with a positive reference
count. -/
def wrapperAlive (s : WState) (a : Nat) : Bool :=
  match tableLookup s.heap a with
  | none => false
  | some w => decide (1 ≤ w.ref_count)

/-- A ref/unref sequence is valid when each call happens while the
wrapper is still allocated with a positive reference count (in C,
calling ref/unref on a freed wrapper is undefined behaviour). -/
def rcValidB (s : WState) (a : Nat) (size : Nat) (rel_fields_fun : Bool)
    (rel_cl_fun : Option (Nat → Int)) : List RCOp → Bool
  | [] => true
  | op :: ops =>
    wrapperAlive s a &&
      rcValidB (applyRC s a size rel_fields_fun rel_cl_fun op) a size
        rel_fields_fun rel_cl_fun ops

/-- One call into the wrapper module, for whole-process traces. -/
inductive COp where
  | newW (cl_object : Nat) (size : Nat)
  | refW (wrapper : Nat)
  | unrefW (wrapper : Nat) (size : Nat) (rel_fields_fun : Bool)
      (rel_cl_fun : Option (Nat → Int))
  | getInfoW (wrapper : Nat) (wrapper2 : Option Nat) (param_name : Nat)
      (info_fun : InfoFun) (use_cache : Bool)
  | addInfoW (wrapper : Nat) (param_name : Nat) (info : CCLWrapperInfo)

/-- Effect of one module call on the process state.  Calls on
unallocated wrapper addresses are undefined behaviour in C and are
modelled as no-ops. -/
def applyOp (s : WState) : COp → WState
  | COp.newW h sz => (ccl_wrapper_new s h sz).2
  | COp.refW a => ccl_wrapper_ref s a
  | COp.unrefW a sz rf rc => (ccl_wrapper_unref s a sz rf rc).state
  | COp.getInfoW a a2 p f uc =>
    match tableLookup s.heap a with
    | none => s
    | some w1 =>
      let r := ccl_wrapper_get_info w1 (a2.bind (tableLookup s.heap)) p f uc
      { s with heap := tableInsert s.heap a r.wrapper }
  | COp.addInfoW a p i =>
    match tableLookup s.heap a with
    | none => s
    | some w =>
      { s with heap := tableInsert s.heap a (ccl_wrapper_add_info w p i) }

/-- Process state after a sequence of module calls starting from the
initial state. -/
def runOps (ops : List COp) : WState :=
  ops.foldl applyOp initState

/-- Well-formedness of an info table: every cached blob has a positive
size and a non-NULL value buffer (every blob `ccl_wrapper_get_info`
caches is of this shape). -/
def wfInfoTable (t : List (Nat × CCLWrapperInfo)) : Prop :=
  ∀ pr ∈ t, 0 < pr.2.size ∧ pr.2.value.isSome = true

/-- Consistency of the process state, maintained by every module call:
heap addresses are distinct and below the allocation bound; the static
`wrappers` table, when it exists, is nonempty with distinct keys; a
NULL `wrappers` table means nothing is allocated; the table maps each
registered `cl_object` to the address of a wrapper wrapping it, and
every allocated wrapper is registered under its `cl_object`. -/
structure WInv (s : WState) : Prop where
  heapNodup : (s.heap.map Prod.fst).Nodup
  heapBound : ∀ a w, tableLookup s.heap a = some w → a < s.nextAddr
  regNodup : ((regTable s).map Prod.fst).Nodup
  regNonempty : ∀ t, s.wrappers = some t → t ≠ []
  noneEmpty : s.wrappers = none → s.heap = []
  regToHeap : ∀ h a, tableLookup (regTable s) h = some a →
    (tableLookup s.heap a).map CCLWrapper.cl_object = some h
  heapToReg : ∀ a w, tableLookup s.heap a = some w →
    tableLookup (regTable s) w.cl_object = some a

/-! ### Association table lemmas -/

theorem tableLookup_insert_self {α : Type} (l : List (Nat × α)) (k : Nat) (v : α) :
    tableLookup (tableInsert l k v) k = some v := by
  induction l with
  | nil => simp [tableInsert, tableLookup]
  | cons p ps ih =>
    by_cases h : p.1 = k
    · simp [tableInsert, h, tableLookup]
    · simp only [tableInsert, if_neg h, tableLookup, if_neg h, ih]

theorem tableLookup_insert_ne {α : Type} (l : List (Nat × α)) (k k' : Nat) (v : α)
    (h : k' ≠ k) :
    tableLookup (tableInsert l k v) k' = tableLookup l k' := by
  induction l with
  | nil =>
    simp only [tableInsert, tableLookup]
    rw [if_neg (fun e : k = k' => h e.symm)]
  | cons p ps ih =>
    by_cases hk : p.1 = k
    · simp only [tableInsert, if_pos hk, tableLookup]
      rw [if_neg (fun e : k = k' => h e.symm)]
      have h' : ¬(p.1 = k') := by rw [hk]; exact fun e => h e.symm
      rw [if_neg h']
    · simp only [tableInsert, if_neg hk, tableLookup]
      by_cases hk' : p.1 = k'
      · rw [if_pos hk', if_pos hk']
      · rw [if_neg hk', if_neg hk', ih]

theorem tableLookup_eq_none_iff {α : Type} (l : List (Nat × α)) (k : Nat) :
    tableLookup l k = none ↔ k ∉ l.map Prod.fst := by
  induction l with
  | nil => simp [tableLookup]
  | cons p ps ih =>
    by_cases h : p.1 = k
    · simp only [tableLookup, if_pos h, List.map_cons, List.mem_cons]
      constructor
      · intro hc; cases hc
      · intro hc; exact absurd (Or.inl h.symm) hc
    · simp only [tableLookup, if_neg h, List.map_cons, List.mem_cons]
      rw [ih]
      constructor
      · intro hn hc
        rcases hc with hc | hc
        · exact h hc.symm
        · exact hn hc
      · intro hn hc
        exact hn (Or.inr hc)

theorem tableLookup_mem {α : Type} {l : List (Nat × α)} {k : Nat} {v : α}
    (h : tableLookup l k = some v) : (k, v) ∈ l := by
  induction l with
  | nil => simp [tableLookup] at h
  | cons p ps ih =>
    obtain ⟨a, b⟩ := p
    by_cases hk : a = k
    · simp [tableLookup, hk] at h
      subst hk
      rw [← h]
      exact List.mem_cons_self _ _
    · simp [tableLookup, hk] at h
      exact List.mem_cons_of_mem _ (ih h)

theorem keys_insert_of_mem {α : Type} {l : List (Nat × α)} {k : Nat} (v : α)
    (h : k ∈ l.map Prod.fst) :
    (tableInsert l k v).map Prod.fst = l.map Prod.fst := by
  induction l with
  | nil => simp at h
  | cons p ps ih =>
    by_cases hk : p.1 = k
    · simp only [tableInsert, if_pos hk, List.map_cons]
      rw [hk]
    · have hmem : k ∈ ps.map Prod.fst := by
        rw [List.map_cons] at h
        rcases List.mem_cons.mp h with hc | hc
        · exact absurd hc.symm hk
        · exact hc
      simp only [tableInsert, if_neg hk, List.map_cons, ih hmem]

theorem keys_insert_of_not_mem {α : Type} {l : List (Nat × α)} {k : Nat} (v : α)
    (h : k ∉ l.map Prod.fst) :
    (tableInsert l k v).map Prod.fst = l.map Prod.fst ++ [k] := by
  induction l with
  | nil => simp [tableInsert]
  | cons p ps ih =>
    rw [List.map_cons] at h
    have h1 : ¬(k = p.1) := fun e => h (List.mem_cons.mpr (Or.inl e))
    have h2 : k ∉ ps.map Prod.fst := fun e => h (List.mem_cons.mpr (Or.inr e))
    have hk : ¬(p.1 = k) := fun e => h1 e.symm
    simp only [tableInsert, if_neg hk, List.map_cons, ih h2, List.cons_append]

theorem mem_tableInsert {α : Type} {l : List (Nat × α)} {k : Nat} {v : α} {pr : Nat × α}
    (h : pr ∈ tableInsert l k v) : pr = (k, v) ∨ pr ∈ l := by
  induction l with
  | nil =>
    simp [tableInsert] at h
    exact Or.inl h
  | cons p ps ih =>
    by_cases hk : p.1 = k
    · simp only [tableInsert, if_pos hk] at h
      rcases List.mem_cons.mp h with hc | hc
      · exact Or.inl hc
      · exact Or.inr (List.mem_cons_of_mem _ hc)
    · simp only [tableInsert, if_neg hk] at h
      rcases List.mem_cons.mp h with hc | hc
      · right
        rw [hc]
        exact List.mem_cons_self _ _
      · rcases ih hc with h' | h'
        · exact Or.inl h'
        · exact Or.inr (List.mem_cons_of_mem _ h')

theorem tableLookup_remove_self {α : Type} {l : List (Nat × α)} {k : Nat}
    (hnd : (l.map Prod.fst).Nodup) :
    tableLookup (tableRemove l k) k = none := by
  induction l with
  | nil => simp [tableRemove, tableLookup]
  | cons p ps ih =>
    rw [List.map_cons] at hnd
    have hnd1 : p.1 ∉ ps.map Prod.fst := (List.nodup_cons.mp hnd).1
    have hnd2 : (ps.map Prod.fst).Nodup := (List.nodup_cons.mp hnd).2
    by_cases hk : p.1 = k
    · simp only [tableRemove, if_pos hk]
      rw [tableLookup_eq_none_iff, ← hk]
      exact hnd1
    · simp only [tableRemove, if_neg hk, tableLookup, if_neg hk]
      exact ih hnd2

theorem tableLookup_remove_ne {α : Type} (l : List (Nat × α)) (k k' : Nat)
    (h : k' ≠ k) :
    tableLookup (tableRemove l k) k' = tableLookup l k' := by
  induction l with
  | nil => simp [tableRemove]
  | cons p ps ih =>
    by_cases hk : p.1 = k
    · simp only [tableRemove, if_pos hk, tableLookup]
      have h' : ¬(p.1 = k') := by rw [hk]; exact fun e => h e.symm
      rw [if_neg h']
    · simp only [tableRemove, if_neg hk, tableLookup]
      by_cases hk' : p.1 = k'
      · rw [if_pos hk', if_pos hk']
      · rw [if_neg hk', if_neg hk', ih]

theorem keys_tableRemove_sublist {α : Type} (l : List (Nat × α)) (k : Nat) :
    ((tableRemove l k).map Prod.fst).Sublist (l.map Prod.fst) := by
  induction l with
  | nil => simp [tableRemove]
  | cons p ps ih =>
    by_cases hk : p.1 = k
    · simp only [tableRemove, if_pos hk, List.map_cons]
      exact List.Sublist.cons _ (List.Sublist.refl _)
    · simp only [tableRemove, if_neg hk, List.map_cons]
      exact List.Sublist.cons₂ _ ih

theorem tableLookup_of_remove {α : Type} {l : List (Nat × α)} {k k' : Nat} {v : α}
    (hnd : (l.map Prod.fst).Nodup)
    (h : tableLookup (tableRemove l k) k' = some v) :
    tableLookup l k' = some v ∧ k' ≠ k := by
  by_cases hk : k' = k
  · rw [hk, tableLookup_remove_self hnd] at h
    exact absurd h (by simp)
  · rw [tableLookup_remove_ne l k k' hk] at h
    exact ⟨h, hk⟩

theorem exists_tableLookup_of_ne_nil {α : Type} {l : List (Nat × α)} (h : l ≠ []) :
    ∃ k v, tableLookup l k = some v := by
  cases l with
  | nil => exact absurd rfl h
  | cons p ps => exact ⟨p.1, p.2, by simp [tableLookup]⟩

/-! ### Shape lemmas for `ccl_wrapper_get_info` -/

theorem infoTable_add_info (w : CCLWrapper) (p : Nat) (i : CCLWrapperInfo) :
    infoTable (ccl_wrapper_add_info w p i) = tableInsert (infoTable w) p i := rfl

theorem ccl_need_query_false_iff (w1 : CCLWrapper) (p : Nat) (uc : Bool) :
    ccl_need_query w1 p uc = false ↔
      uc = true ∧ w1.info.isSome = true ∧
        (tableLookup (infoTable w1) p).isSome = true := by
  cases uc <;> cases hw : w1.info <;>
    simp [ccl_need_query, tableContains, hw]

theorem get_info_of_not_need (w1 : CCLWrapper) (w2 : Option CCLWrapper) (p : Nat)
    (f : InfoFun) (uc : Bool) (h : ccl_need_query w1 p uc = false) :
    ccl_wrapper_get_info w1 w2 p f uc =
      { info := tableLookup (infoTable w1) p, wrapper := w1
        errSet := false, queries := 0 } := by
  simp only [ccl_wrapper_get_info, h]
  rfl

theorem get_info_of_probe_err (w1 : CCLWrapper) (w2 : Option CCLWrapper) (p : Nat)
    (f : InfoFun) (uc : Bool) (hq : ccl_need_query w1 p uc = true)
    (h1 : (f w1.cl_object (w2.map CCLWrapper.cl_object) p 0 false).1 ≠ CL_SUCCESS) :
    ccl_wrapper_get_info w1 w2 p f uc =
      { info := none, wrapper := w1, errSet := true, queries := 1 } := by
  simp only [ccl_wrapper_get_info, hq, if_true]
  rw [if_pos h1]

theorem get_info_of_zero_size (w1 : CCLWrapper) (w2 : Option CCLWrapper) (p : Nat)
    (f : InfoFun) (uc : Bool) (hq : ccl_need_query w1 p uc = true)
    (h1 : (f w1.cl_object (w2.map CCLWrapper.cl_object) p 0 false).1 = CL_SUCCESS)
    (h0 : (f w1.cl_object (w2.map CCLWrapper.cl_object) p 0 false).2.1 = 0) :
    ccl_wrapper_get_info w1 w2 p f uc =
      { info := none, wrapper := w1, errSet := true, queries := 1 } := by
  simp only [ccl_wrapper_get_info, hq, if_true]
  rw [if_neg (not_not_intro h1), if_pos h0]

theorem get_info_of_fetch_err (w1 : CCLWrapper) (w2 : Option CCLWrapper) (p : Nat)
    (f : InfoFun) (uc : Bool) (hq : ccl_need_query w1 p uc = true)
    (h1 : (f w1.cl_object (w2.map CCLWrapper.cl_object) p 0 false).1 = CL_SUCCESS)
    (h0 : (f w1.cl_object (w2.map CCLWrapper.cl_object) p 0 false).2.1 ≠ 0)
    (h2 : (f w1.cl_object (w2.map CCLWrapper.cl_object) p
      (f w1.cl_object (w2.map CCLWrapper.cl_object) p 0 false).2.1 true).1 ≠ CL_SUCCESS) :
    ccl_wrapper_get_info w1 w2 p f uc =
      { info := none, wrapper := w1, errSet := true, queries := 1 } := by
  simp only [ccl_wrapper_get_info, hq, if_true]
  rw [if_neg (not_not_intro h1), if_neg h0, if_pos h2]

theorem get_info_of_success (w1 : CCLWrapper) (w2 : Option CCLWrapper) (p : Nat)
    (f : InfoFun) (uc : Bool) (hq : ccl_need_query w1 p uc = true)
    (h1 : (f w1.cl_object (w2.map CCLWrapper.cl_object) p 0 false).1 = CL_SUCCESS)
    (h0 : (f w1.cl_object (w2.map CCLWrapper.cl_object) p 0 false).2.1 ≠ 0)
    (h2 : (f w1.cl_object (w2.map CCLWrapper.cl_object) p
      (f w1.cl_object (w2.map CCLWrapper.cl_object) p 0 false).2.1 true).1 = CL_SUCCESS) :
    ccl_wrapper_get_info w1 w2 p f uc =
      { info := some
          { value := some (List.takeD
              (f w1.cl_object (w2.map CCLWrapper.cl_object) p 0 false).2.1
              (f w1.cl_object (w2.map CCLWrapper.cl_object) p
                (f w1.cl_object (w2.map CCLWrapper.cl_object) p 0 false).2.1 true).2.2 0)
            size := (f w1.cl_object (w2.map CCLWrapper.cl_object) p 0 false).2.1 }
        wrapper := ccl_wrapper_add_info w1 p
          { value := some (List.takeD
              (f w1.cl_object (w2.map CCLWrapper.cl_object) p 0 false).2.1
              (f w1.cl_object (w2.map CCLWrapper.cl_object) p
                (f w1.cl_object (w2.map CCLWrapper.cl_object) p 0 false).2.1 true).2.2 0)
            size := (f w1.cl_object (w2.map CCLWrapper.cl_object) p 0 false).2.1 }
        errSet := false, queries := 1 } := by
  simp only [ccl_wrapper_get_info, hq, if_true]
  rw [if_neg (not_not_intro h1), if_neg h0, if_neg (not_not_intro h2)]
  simp [ccl_wrapper_info_new]

theorem get_info_cases (w1 : CCLWrapper) (w2 : Option CCLWrapper) (p : Nat)
    (f : InfoFun) (uc : Bool) :
    (ccl_need_query w1 p uc = false ∧
      ccl_wrapper_get_info w1 w2 p f uc =
        { info := tableLookup (infoTable w1) p, wrapper := w1
          errSet := false, queries := 0 }) ∨
    (ccl_need_query w1 p uc = true ∧
      ccl_wrapper_get_info w1 w2 p f uc =
        { info := none, wrapper := w1, errSet := true, queries := 1 }) ∨
    (ccl_need_query w1 p uc = true ∧
      (f w1.cl_object (w2.map CCLWrapper.cl_object) p 0 false).2.1 ≠ 0 ∧
      ccl_wrapper_get_info w1 w2 p f uc =
        { info := some
            { value := some (List.takeD
                (f w1.cl_object (w2.map CCLWrapper.cl_object) p 0 false).2.1
                (f w1.cl_object (w2.map CCLWrapper.cl_object) p
                  (f w1.cl_object (w2.map CCLWrapper.cl_object) p 0 false).2.1 true).2.2 0)
              size := (f w1.cl_object (w2.map CCLWrapper.cl_object) p 0 false).2.1 }
          wrapper := ccl_wrapper_add_info w1 p
            { value := some (List.takeD
                (f w1.cl_object (w2.map CCLWrapper.cl_object) p 0 false).2.1
                (f w1.cl_object (w2.map CCLWrapper.cl_object) p
                  (f w1.cl_object (w2.map CCLWrapper.cl_object) p 0 false).2.1 true).2.2 0)
              size := (f w1.cl_object (w2.map CCLWrapper.cl_object) p 0 false).2.1 }
          errSet := false, queries := 1 }) := by
  by_cases hq : ccl_need_query w1 p uc = true
  · by_cases h1 : (f w1.cl_object (w2.map CCLWrapper.cl_object) p 0 false).1 = CL_SUCCESS
    · by_cases h0 : (f w1.cl_object (w2.map CCLWrapper.cl_object) p 0 false).2.1 = 0
      · exact Or.inr (Or.inl ⟨hq, get_info_of_zero_size w1 w2 p f uc hq h1 h0⟩)
      · by_cases h2 : (f w1.cl_object (w2.map CCLWrapper.cl_object) p
            (f w1.cl_object (w2.map CCLWrapper.cl_object) p 0 false).2.1 true).1 = CL_SUCCESS
        · exact Or.inr (Or.inr ⟨hq, h0, get_info_of_success w1 w2 p f uc hq h1 h0 h2⟩)
        · exact Or.inr (Or.inl ⟨hq, get_info_of_fetch_err w1 w2 p f uc hq h1 h0 h2⟩)
    · exact Or.inr (Or.inl ⟨hq, get_info_of_probe_err w1 w2 p f uc hq h1⟩)
  · have hq' : ccl_need_query w1 p uc = false := by simpa using hq
    exact Or.inl ⟨hq', get_info_of_not_need w1 w2 p f uc hq'⟩

theorem get_info_queries_le_one (w1 : CCLWrapper) (w2 : Option CCLWrapper) (p : Nat)
    (f : InfoFun) (uc : Bool) :
    (ccl_wrapper_get_info w1 w2 p f uc).queries ≤ 1 := by
  rcases get_info_cases w1 w2 p f uc with ⟨_, he⟩ | ⟨_, he⟩ | ⟨_, _, he⟩ <;>
    rw [he] <;> simp

theorem get_info_some_lookup {w1 : CCLWrapper} {w2 : Option CCLWrapper} {p : Nat}
    {f : InfoFun} {uc : Bool} {b : CCLWrapperInfo}
    (h : (ccl_wrapper_get_info w1 w2 p f uc).info = some b) :
    tableLookup (infoTable ((ccl_wrapper_get_info w1 w2 p f uc).wrapper)) p = some b ∧
      ((ccl_wrapper_get_info w1 w2 p f uc).wrapper).info.isSome = true := by
  rcases get_info_cases w1 w2 p f uc with ⟨hq, he⟩ | ⟨hq, he⟩ | ⟨hq, h0, he⟩
  · rw [he] at h ⊢
    refine ⟨h, ?_⟩
    exact ((ccl_need_query_false_iff w1 p uc).mp hq).2.1
  · rw [he] at h
    exact absurd h (by simp)
  · rw [he] at h ⊢
    simp only [GetInfoResult.info, Option.some.injEq] at h
    simp only [GetInfoResult.wrapper, infoTable_add_info]
    rw [← h]
    exact ⟨tableLookup_insert_self _ _ _, rfl⟩

theorem get_info_blob_wf (w1 : CCLWrapper) (w2 : Option CCLWrapper) (p : Nat)
    (f : InfoFun) (uc : Bool) (hwf : wfInfoTable (infoTable w1)) :
    ∀ b, (ccl_wrapper_get_info w1 w2 p f uc).info = some b →
      0 < b.size ∧ b.value.isSome = true := by
  intro b hb
  rcases get_info_cases w1 w2 p f uc with ⟨hq, he⟩ | ⟨hq, he⟩ | ⟨hq, h0, he⟩
  · rw [he] at hb
    exact hwf _ (tableLookup_mem hb)
  · rw [he] at hb
    exact absurd hb (by simp)
  · rw [he] at hb
    simp only [GetInfoResult.info, Option.some.injEq] at hb
    rw [← hb]
    exact ⟨Nat.pos_of_ne_zero h0, rfl⟩

theorem get_info_wf_preserved (w1 : CCLWrapper) (w2 : Option CCLWrapper) (p : Nat)
    (f : InfoFun) (uc : Bool) (hwf : wfInfoTable (infoTable w1)) :
    wfInfoTable (infoTable ((ccl_wrapper_get_info w1 w2 p f uc).wrapper)) := by
  rcases get_info_cases w1 w2 p f uc with ⟨hq, he⟩ | ⟨hq, he⟩ | ⟨hq, h0, he⟩
  · rw [he]
    exact hwf
  · rw [he]
    exact hwf
  · rw [he]
    simp only [GetInfoResult.wrapper, infoTable_add_info]
    intro pr hpr
    rcases mem_tableInsert hpr with h' | h'
    · rw [h']
      exact ⟨Nat.pos_of_ne_zero h0, rfl⟩
    · exact hwf _ h'

/-- Claim C5: two `ccl_wrapper_get_info` calls with `use_cache = CL_TRUE`
and no intervening non-cached call for the same `param_name`, the first
of which succeeds, perform at most one native query in total; the
second call performs no native query, returns the same info blob, and
leaves the wrapper unchanged. -/
theorem get_info_cache_round_trip (w1 : CCLWrapper) (w2 : Option CCLWrapper)
    (p : Nat) (f : InfoFun) (b : CCLWrapperInfo)
    (h1 : (ccl_wrapper_get_info w1 w2 p f true).info = some b) :
    (ccl_wrapper_get_info
        ((ccl_wrapper_get_info w1 w2 p f true).wrapper) w2 p f true).info = some b ∧
    (ccl_wrapper_get_info
        ((ccl_wrapper_get_info w1 w2 p f true).wrapper) w2 p f true).queries = 0 ∧
    (ccl_wrapper_get_info
        ((ccl_wrapper_get_info w1 w2 p f true).wrapper) w2 p f true).wrapper =
      (ccl_wrapper_get_info w1 w2 p f true).wrapper ∧
    (ccl_wrapper_get_info w1 w2 p f true).queries +
      (ccl_wrapper_get_info
        ((ccl_wrapper_get_info w1 w2 p f true).wrapper) w2 p f true).queries ≤ 1 := by
  obtain ⟨hl, hs⟩ := get_info_some_lookup h1
  have hq2 : ccl_need_query ((ccl_wrapper_get_info w1 w2 p f true).wrapper) p true = false := by
    rw [ccl_need_query_false_iff]
    exact ⟨rfl, hs, by rw [hl]; rfl⟩
  have hr2 := get_info_of_not_need ((ccl_wrapper_get_info w1 w2 p f true).wrapper)
    w2 p f true hq2
  refine ⟨?_, ?_, ?_, ?_⟩
  · rw [hr2]
    exact hl
  · rw [hr2]
  · rw [hr2]
  · rw [hr2]
    show (ccl_wrapper_get_info w1 w2 p f true).queries + 0 ≤ 1
    have := get_info_queries_le_one w1 w2 p f true
    omega

theorem get_info_cache_round_trip_witness :
    (ccl_wrapper_get_info ⟨5, 1, none⟩ none 7
        (fun _ _ _ _ buf => (0, 4, if buf then [1, 2, 3, 4] else [])) true).info =
      some ⟨some [1, 2, 3, 4], 4⟩ ∧
    (ccl_wrapper_get_info
        ((ccl_wrapper_get_info ⟨5, 1, none⟩ none 7
          (fun _ _ _ _ buf => (0, 4, if buf then [1, 2, 3, 4] else [])) true).wrapper)
        none 7
        (fun _ _ _ _ buf => (0, 4, if buf then [1, 2, 3, 4] else [])) true).info =
      some ⟨some [1, 2, 3, 4], 4⟩ :=
  ⟨by decide, (get_info_cache_round_trip _ _ _ _ _ (by decide)).1⟩

/-- Claim C6: `ccl_wrapper_get_info` with `use_cache = CL_FALSE` always
performs the native query (both phases), even when an entry for
`param_name` is cached, and on success the returned blob is the freshly
fetched one (its size the probed size, its value the fetched bytes) and
it replaces the cached entry. -/
theorem get_info_forced_refresh (w1 : CCLWrapper) (w2 : Option CCLWrapper)
    (p : Nat) (f : InfoFun) :
    (ccl_wrapper_get_info w1 w2 p f false).queries = 1 ∧
    ∀ b, (ccl_wrapper_get_info w1 w2 p f false).info = some b →
      tableLookup (infoTable ((ccl_wrapper_get_info w1 w2 p f false).wrapper)) p
          = some b ∧
      b.size = (f w1.cl_object (w2.map CCLWrapper.cl_object) p 0 false).2.1 ∧
      b.value = some (List.takeD
        (f w1.cl_object (w2.map CCLWrapper.cl_object) p 0 false).2.1
        (f w1.cl_object (w2.map CCLWrapper.cl_object) p
          (f w1.cl_object (w2.map CCLWrapper.cl_object) p 0 false).2.1 true).2.2 0) := by
  have hq : ccl_need_query w1 p false = true := by simp [ccl_need_query]
  rcases get_info_cases w1 w2 p f false with ⟨hq', _⟩ | ⟨_, he⟩ | ⟨_, h0, he⟩
  · rw [hq] at hq'
    cases hq'
  · rw [he]
    refine ⟨rfl, ?_⟩
    intro b hb
    exact absurd hb (by simp)
  · rw [he]
    refine ⟨rfl, ?_⟩
    intro b hb
    simp only [GetInfoResult.info, Option.some.injEq] at hb
    subst hb
    refine ⟨?_, rfl, rfl⟩
    simp only [GetInfoResult.wrapper, infoTable_add_info]
    exact tableLookup_insert_self _ _ _

theorem get_info_forced_refresh_witness :
    ((ccl_wrapper_get_info ⟨5, 1, some [(7, ⟨some [9, 9], 2⟩)]⟩ none 7
        (fun _ _ _ _ buf => (0, 4, if buf then [1, 2, 3, 4] else [])) false).queries = 1) ∧
    tableLookup (infoTable ((ccl_wrapper_get_info ⟨5, 1, some [(7, ⟨some [9, 9], 2⟩)]⟩ none 7
        (fun _ _ _ _ buf => (0, 4, if buf then [1, 2, 3, 4] else [])) false).wrapper)) 7 =
      some ⟨some [1, 2, 3, 4], 4⟩ :=
  ⟨(get_info_forced_refresh _ _ _ _).1,
    ((get_info_forced_refresh ⟨5, 1, some [(7, ⟨some [9, 9], 2⟩)]⟩ none 7
      (fun _ _ _ _ buf => (0, 4, if buf then [1, 2, 3, 4] else [])) ).2
      ⟨some [1, 2, 3, 4], 4⟩ (by decide)).1⟩

/-- Claim C7: when `ccl_wrapper_get_info` performs the native query and
the size probe reports size 0, the call fails: NULL is returned, the
error is set, and the wrapper is untouched; no zero-sized blob is ever
returned by `ccl_wrapper_get_info` or stored in a well-formed info
table. -/
theorem get_info_zero_size_rejection (w1 : CCLWrapper) (w2 : Option CCLWrapper)
    (p : Nat) (f : InfoFun) (uc : Bool) (hwf : wfInfoTable (infoTable w1)) :
    (ccl_need_query w1 p uc = true →
      (f w1.cl_object (w2.map CCLWrapper.cl_object) p 0 false).2.1 = 0 →
      (ccl_wrapper_get_info w1 w2 p f uc).info = none ∧
      (ccl_wrapper_get_info w1 w2 p f uc).errSet = true ∧
      (ccl_wrapper_get_info w1 w2 p f uc).wrapper = w1) ∧
    (∀ b, (ccl_wrapper_get_info w1 w2 p f uc).info = some b →
      0 < b.size ∧ b.value.isSome = true) ∧
    wfInfoTable (infoTable ((ccl_wrapper_get_info w1 w2 p f uc).wrapper)) := by
  refine ⟨?_, get_info_blob_wf w1 w2 p f uc hwf,
    get_info_wf_preserved w1 w2 p f uc hwf⟩
  intro hq h0
  by_cases h1 : (f w1.cl_object (w2.map CCLWrapper.cl_object) p 0 false).1 = CL_SUCCESS
  · rw [get_info_of_zero_size w1 w2 p f uc hq h1 h0]
    exact ⟨rfl, rfl, rfl⟩
  · rw [get_info_of_probe_err w1 w2 p f uc hq h1]
    exact ⟨rfl, rfl, rfl⟩

theorem get_info_zero_size_rejection_witness :
    wfInfoTable (infoTable ⟨5, 1, none⟩) ∧
    (ccl_need_query ⟨5, 1, none⟩ 7 true = true) ∧
    ((ccl_wrapper_get_info ⟨5, 1, none⟩ none 7
        (fun _ _ _ _ _ => (0, 0, [])) true).info = none ∧
      (ccl_wrapper_get_info ⟨5, 1, none⟩ none 7
        (fun _ _ _ _ _ => (0, 0, [])) true).errSet = true ∧
      (ccl_wrapper_get_info ⟨5, 1, none⟩ none 7
        (fun _ _ _ _ _ => (0, 0, [])) true).wrapper = ⟨5, 1, none⟩) :=
  ⟨by simp [wfInfoTable, infoTable], by decide,
    (get_info_zero_size_rejection ⟨5, 1, none⟩ none 7
      (fun _ _ _ _ _ => (0, 0, [])) true
      (by simp [wfInfoTable, infoTable])).1 (by decide) (by decide)⟩

/-- Claim C9: whenever `ccl_wrapper_get_info` fails (sets the error),
it returns NULL and leaves the wrapper — in particular any entry
already cached for `param_name` — unchanged; conversely a NULL result
only happens with the error set. -/
theorem get_info_failure_cache_unchanged (w1 : CCLWrapper) (w2 : Option CCLWrapper)
    (p : Nat) (f : InfoFun) (uc : Bool) :
    ((ccl_wrapper_get_info w1 w2 p f uc).errSet = true →
      (ccl_wrapper_get_info w1 w2 p f uc).info = none ∧
      (ccl_wrapper_get_info w1 w2 p f uc).wrapper = w1) ∧
    ((ccl_wrapper_get_info w1 w2 p f uc).info = none →
      (ccl_wrapper_get_info w1 w2 p f uc).errSet = true) := by
  rcases get_info_cases w1 w2 p f uc with ⟨hq, he⟩ | ⟨hq, he⟩ | ⟨hq, h0, he⟩
  · have hls := ((ccl_need_query_false_iff w1 p uc).mp hq).2.2
    rw [he]
    constructor
    · intro h
      simp at h
    · intro h
      simp only [GetInfoResult.info] at h
      rw [h] at hls
      simp at hls
  · rw [he]
    exact ⟨fun _ => ⟨rfl, rfl⟩, fun _ => rfl⟩
  · rw [he]
    constructor
    · intro h
      simp at h
    · intro h
      simp at h

theorem get_info_failure_cache_unchanged_witness :
    (ccl_wrapper_get_info ⟨5, 1, some [(7, ⟨some [9, 9], 2⟩)]⟩ none 8
        (fun _ _ _ _ _ => (-5, 0, [])) true).info = none ∧
    (ccl_wrapper_get_info ⟨5, 1, some [(7, ⟨some [9, 9], 2⟩)]⟩ none 8
        (fun _ _ _ _ _ => (-5, 0, [])) true).wrapper = ⟨5, 1, some [(7, ⟨some [9, 9], 2⟩)]⟩ :=
  (get_info_failure_cache_unchanged ⟨5, 1, some [(7, ⟨some [9, 9], 2⟩)]⟩ none 8
    (fun _ _ _ _ _ => (-5, 0, [])) true).1 (by decide)

/-- Claim C10: `ccl_wrapper_get_info_value` and
`ccl_wrapper_get_info_size` each perform exactly one inner
`ccl_wrapper_get_info` call and nothing else: on a well-formed cache
they return exactly the inner blob's value pointer / size, NULL / 0
exactly when the inner call fails, and their wrapper state, error flag
and query count are those of the inner call. -/
theorem get_info_value_size_delegation (w1 : CCLWrapper) (w2 : Option CCLWrapper)
    (p : Nat) (f : InfoFun) (uc : Bool) (hwf : wfInfoTable (infoTable w1)) :
    (∀ d, (ccl_wrapper_get_info w1 w2 p f uc).info = some d →
      (ccl_wrapper_get_info_value w1 w2 p f uc).value = d.value ∧
      (ccl_wrapper_get_info_size w1 w2 p f uc).size = d.size) ∧
    ((ccl_wrapper_get_info w1 w2 p f uc).info = none →
      (ccl_wrapper_get_info_value w1 w2 p f uc).value = none ∧
      (ccl_wrapper_get_info_size w1 w2 p f uc).size = 0) ∧
    ((ccl_wrapper_get_info_value w1 w2 p f uc).value = none ↔
      (ccl_wrapper_get_info w1 w2 p f uc).info = none) ∧
    ((ccl_wrapper_get_info_size w1 w2 p f uc).size = 0 ↔
      (ccl_wrapper_get_info w1 w2 p f uc).info = none) ∧
    (ccl_wrapper_get_info_value w1 w2 p f uc).wrapper =
      (ccl_wrapper_get_info w1 w2 p f uc).wrapper ∧
    (ccl_wrapper_get_info_value w1 w2 p f uc).errSet =
      (ccl_wrapper_get_info w1 w2 p f uc).errSet ∧
    (ccl_wrapper_get_info_value w1 w2 p f uc).queries =
      (ccl_wrapper_get_info w1 w2 p f uc).queries ∧
    (ccl_wrapper_get_info_size w1 w2 p f uc).wrapper =
      (ccl_wrapper_get_info w1 w2 p f uc).wrapper ∧
    (ccl_wrapper_get_info_size w1 w2 p f uc).errSet =
      (ccl_wrapper_get_info w1 w2 p f uc).errSet ∧
    (ccl_wrapper_get_info_size w1 w2 p f uc).queries =
      (ccl_wrapper_get_info w1 w2 p f uc).queries := by
  have hv : (ccl_wrapper_get_info_value w1 w2 p f uc).value =
      (match (ccl_wrapper_get_info w1 w2 p f uc).info with
        | some d => d.value
        | none => none) := rfl
  have hs : (ccl_wrapper_get_info_size w1 w2 p f uc).size =
      (match (ccl_wrapper_get_info w1 w2 p f uc).info with
        | some d => d.size
        | none => 0) := rfl
  refine ⟨?_, ?_, ?_, ?_, rfl, rfl, rfl, rfl, rfl, rfl⟩
  · intro d hd'
    rw [hv, hs, hd']
    exact ⟨rfl, rfl⟩
  · intro h
    rw [hv, hs, h]
    exact ⟨rfl, rfl⟩
  · rw [hv]
    cases hi : (ccl_wrapper_get_info w1 w2 p f uc).info with
    | none => simp
    | some d =>
      have hd := get_info_blob_wf w1 w2 p f uc hwf d hi
      obtain ⟨bs, hbs⟩ := Option.isSome_iff_exists.mp hd.2
      simp [hbs]
  · rw [hs]
    cases hi : (ccl_wrapper_get_info w1 w2 p f uc).info with
    | none => simp
    | some d =>
      have hd := get_info_blob_wf w1 w2 p f uc hwf d hi
      have hsz := hd.1
      simp only [Option.some.injEq, iff_false]
      constructor
      · intro h
        omega
      · intro h
        cases h

theorem get_info_value_size_delegation_witness :
    (ccl_wrapper_get_info_value ⟨5, 1, none⟩ none 7
        (fun _ _ _ _ buf => (0, 4, if buf then [1, 2, 3, 4] else [])) true).value =
      some [1, 2, 3, 4] ∧
    (ccl_wrapper_get_info_size ⟨5, 1, none⟩ none 7
        (fun _ _ _ _ buf => (0, 4, if buf then [1, 2, 3, 4] else [])) true).size = 4 :=
  (get_info_value_size_delegation ⟨5, 1, none⟩ none 7
      (fun _ _ _ _ buf => (0, 4, if buf then [1, 2, 3, 4] else [])) true
      (by simp [wfInfoTable, infoTable])).1 ⟨some [1, 2, 3, 4], 4⟩ (by decide)

/-! ### Shape lemmas for `ccl_wrapper_ref` / `ccl_wrapper_unref` -/

theorem mem_keys_of_lookup {α : Type} {l : List (Nat × α)} {k : Nat} {v : α}
    (h : tableLookup l k = some v) : k ∈ l.map Prod.fst := by
  by_contra hc
  rw [← tableLookup_eq_none_iff] at hc
  rw [h] at hc
  cases hc

theorem ref_of_lookup {s : WState} {a : Nat} {w : CCLWrapper}
    (hw : tableLookup s.heap a = some w) :
    ccl_wrapper_ref s a =
      { s with heap := tableInsert s.heap a { w with ref_count := w.ref_count + 1 } } := by
  simp only [ccl_wrapper_ref, hw]

theorem unref_of_pos {s : WState} {a : Nat} (sz : Nat) (rf : Bool)
    (rc : Option (Nat → Int)) {w : CCLWrapper}
    (hw : tableLookup s.heap a = some w) (hpos : w.ref_count - 1 ≠ 0) :
    ccl_wrapper_unref s a sz rf rc =
      { destroyed := false, err := none
        state :=
          { s with heap := tableInsert s.heap a { w with ref_count := w.ref_count - 1 } }
        events := [] } := by
  simp only [ccl_wrapper_unref, hw]
  rw [if_neg hpos]

theorem unref_of_last {s : WState} {a : Nat} (sz : Nat) (rf : Bool)
    (rc : Option (Nat → Int)) {w : CCLWrapper}
    (hw : tableLookup s.heap a = some w) (h1 : w.ref_count - 1 = 0) :
    ccl_wrapper_unref s a sz rf rc =
      { destroyed := true
        err := match rc with
          | none => none
          | some f => if f w.cl_object = CL_SUCCESS then none else some (f w.cl_object)
        state :=
          { heap := tableRemove s.heap a
            nextAddr := s.nextAddr
            wrappers :=
              if (tableRemove (regTable s) w.cl_object).length = 0 then none
              else some (tableRemove (regTable s) w.cl_object) }
        events :=
          (match rc with
            | none => []
            | some f => [TEvent.relCl w.cl_object (f w.cl_object)]) ++
          (match w.info with
            | none => []
            | some c =>
              c.map (fun pr => TEvent.destroyBlob pr.1 pr.2) ++ [TEvent.destroyInfoTable]) ++
          (if (tableRemove (regTable s) w.cl_object).length = 0 then
              [TEvent.removeFromRegistry w.cl_object, TEvent.destroyRegistryTable]
            else [TEvent.removeFromRegistry w.cl_object]) ++
          (if rf then [TEvent.relFields] else []) ++
          [TEvent.freeWrapper] } := by
  simp only [ccl_wrapper_unref, hw]
  rw [if_pos h1]
  cases rc with
  | none =>
    by_cases hlen : (tableRemove (regTable s) w.cl_object).length = 0 <;>
      simp [hlen]
  | some f =>
    by_cases hlen : (tableRemove (regTable s) w.cl_object).length = 0 <;>
      simp [hlen]

/-- Claim C3: the `ccl_wrapper_unref` call that drops the reference
count to zero performs teardown in exactly this order: (1) the native
release function on the wrapped object (when supplied), (2) destruction
of every cached attribute blob followed by the cache table itself (when
it exists), (3) removal of the wrapper's entry from the registry
(destroying the registry table when it became empty), (4) the fields
release function (when supplied), (5) deallocation of the wrapper. -/
theorem wrapper_unref_teardown_order (s : WState) (a : Nat) (sz : Nat) (rf : Bool)
    (rc : Option (Nat → Int)) (w : CCLWrapper)
    (hw : tableLookup s.heap a = some w) (h1 : w.ref_count = 1) :
    (ccl_wrapper_unref s a sz rf rc).events =
      (match rc with
        | none => []
        | some f => [TEvent.relCl w.cl_object (f w.cl_object)]) ++
      (match w.info with
        | none => []
        | some c =>
          c.map (fun pr => TEvent.destroyBlob pr.1 pr.2) ++ [TEvent.destroyInfoTable]) ++
      (if (tableRemove (regTable s) w.cl_object).length = 0 then
          [TEvent.removeFromRegistry w.cl_object, TEvent.destroyRegistryTable]
        else [TEvent.removeFromRegistry w.cl_object]) ++
      (if rf then [TEvent.relFields] else []) ++
      [TEvent.freeWrapper] := by
  rw [unref_of_last sz rf rc hw (by rw [h1]; decide)]

theorem wrapper_unref_teardown_order_witness :
    tableLookup (WState.mk [(0, ⟨5, 1, some [(7, ⟨some [1], 1⟩)]⟩)] 1 (some [(5, 0)])).heap 0 =
      some ⟨5, 1, some [(7, ⟨some [1], 1⟩)]⟩ ∧
    (ccl_wrapper_unref (WState.mk [(0, ⟨5, 1, some [(7, ⟨some [1], 1⟩)]⟩)] 1 (some [(5, 0)]))
        0 16 true (some (fun _ => 0))).events =
      [TEvent.relCl 5 0, TEvent.destroyBlob 7 ⟨some [1], 1⟩, TEvent.destroyInfoTable,
        TEvent.removeFromRegistry 5, TEvent.destroyRegistryTable,
        TEvent.relFields, TEvent.freeWrapper] := by
  refine ⟨by decide, ?_⟩
  rw [wrapper_unref_teardown_order (WState.mk [(0, ⟨5, 1, some [(7, ⟨some [1], 1⟩)]⟩)] 1 (some [(5, 0)]))
    0 16 true (some (fun _ => 0)) ⟨5, 1, some [(7, ⟨some [1], 1⟩)]⟩ (by decide) (by decide)]
  decide

/-- Claim C4: when the native release function fails during teardown,
`ccl_wrapper_unref` records the failure in the error out-parameter but
still destroys the cache (when present), removes the wrapper from the
registry, runs the fields release function (when supplied), frees the
wrapper, and returns CL_TRUE. -/
theorem wrapper_unref_release_failure (s : WState) (a : Nat) (sz : Nat) (rf : Bool)
    (f : Nat → Int) (w : CCLWrapper)
    (hw : tableLookup s.heap a = some w) (h1 : w.ref_count = 1)
    (hnd : (s.heap.map Prod.fst).Nodup)
    (hrnd : ((regTable s).map Prod.fst).Nodup)
    (hf : f w.cl_object ≠ CL_SUCCESS) :
    (ccl_wrapper_unref s a sz rf (some f)).destroyed = true ∧
    (ccl_wrapper_unref s a sz rf (some f)).err = some (f w.cl_object) ∧
    tableLookup (ccl_wrapper_unref s a sz rf (some f)).state.heap a = none ∧
    tableLookup (regTable ((ccl_wrapper_unref s a sz rf (some f)).state)) w.cl_object = none ∧
    (TEvent.destroyInfoTable ∈ (ccl_wrapper_unref s a sz rf (some f)).events ↔
      w.info.isSome = true) ∧
    (TEvent.relFields ∈ (ccl_wrapper_unref s a sz rf (some f)).events ↔ rf = true) ∧
    TEvent.freeWrapper ∈ (ccl_wrapper_unref s a sz rf (some f)).events := by
  rw [unref_of_last sz rf (some f) hw (by rw [h1]; decide)]
  refine ⟨rfl, by simp [hf], tableLookup_remove_self hnd, ?_, ?_, ?_, ?_⟩
  · by_cases hlen : (tableRemove (regTable s) w.cl_object).length = 0
    · rw [if_pos hlen]
      simp [regTable, tableLookup]
    · rw [if_neg hlen]
      show tableLookup (tableRemove (regTable s) w.cl_object) w.cl_object = none
      exact tableLookup_remove_self hrnd
  · cases hio : w.info <;>
      by_cases hlen : (tableRemove (regTable s) w.cl_object).length = 0 <;>
      cases rf <;> simp [hlen]
  · cases hio : w.info <;>
      by_cases hlen : (tableRemove (regTable s) w.cl_object).length = 0 <;>
      cases rf <;> simp [hlen]
  · cases hio : w.info <;>
      by_cases hlen : (tableRemove (regTable s) w.cl_object).length = 0 <;>
      cases rf <;> simp [hlen]

theorem wrapper_unref_release_failure_witness :
    (ccl_wrapper_unref (WState.mk [(0, ⟨5, 1, some [(7, ⟨some [1], 1⟩)]⟩)] 1 (some [(5, 0)]))
        0 16 true (some (fun _ => -5))).destroyed = true ∧
    (ccl_wrapper_unref (WState.mk [(0, ⟨5, 1, some [(7, ⟨some [1], 1⟩)]⟩)] 1 (some [(5, 0)]))
        0 16 true (some (fun _ => -5))).err = some (-5) ∧
    tableLookup (ccl_wrapper_unref (WState.mk [(0, ⟨5, 1, some [(7, ⟨some [1], 1⟩)]⟩)] 1 (some [(5, 0)]))
        0 16 true (some (fun _ => -5))).state.heap 0 = none :=
  ⟨(wrapper_unref_release_failure _ 0 16 true (fun _ => -5) ⟨5, 1, some [(7, ⟨some [1], 1⟩)]⟩
      (by decide) (by decide) (by decide) (by decide) (by decide)).1,
    (wrapper_unref_release_failure (WState.mk [(0, ⟨5, 1, some [(7, ⟨some [1], 1⟩)]⟩)] 1 (some [(5, 0)]))
      0 16 true (fun _ => -5) ⟨5, 1, some [(7, ⟨some [1], 1⟩)]⟩
      (by decide) (by decide) (by decide) (by decide) (by decide)).2.1,
    (wrapper_unref_release_failure (WState.mk [(0, ⟨5, 1, some [(7, ⟨some [1], 1⟩)]⟩)] 1 (some [(5, 0)]))
      0 16 true (fun _ => -5) ⟨5, 1, some [(7, ⟨some [1], 1⟩)]⟩
      (by decide) (by decide) (by decide) (by decide) (by decide)).2.2.1⟩

/-! ### Reference count conservation -/

theorem wrapperAlive_iff {s : WState} {a : Nat} {w : CCLWrapper}
    (hw : tableLookup s.heap a = some w) :
    wrapperAlive s a = true ↔ 1 ≤ w.ref_count := by
  simp [wrapperAlive, hw]

theorem runRC_spec (a sz : Nat) (rf : Bool) (rc : Option (Nat → Int)) :
    ∀ (ops : List RCOp) (s : WState) (w : CCLWrapper),
      (s.heap.map Prod.fst).Nodup →
      tableLookup s.heap a = some w →
      1 ≤ w.ref_count →
      rcValidB s a sz rf rc ops = true →
      ((tableLookup (runRC s a sz rf rc ops).1.heap a = none) ↔
        (countUnref ops : Int) = countRef ops + w.ref_count) ∧
      (runRC s a sz rf rc ops).2.count true =
        (if (countUnref ops : Int) = countRef ops + w.ref_count then 1 else 0) := by
  intro ops
  induction ops with
  | nil =>
    intro s w hnd hw hpos _
    simp only [runRC, countRef, countUnref]
    constructor
    · constructor
      · intro h
        rw [hw] at h
        cases h
      · intro h
        exfalso
        omega
    · rw [if_neg (by omega : ¬((0 : Nat) : Int) = ((0 : Nat) : Int) + w.ref_count)]
      rfl
  | cons op ops ih =>
    intro s w hnd hw hpos hv
    simp only [rcValidB, Bool.and_eq_true] at hv
    obtain ⟨halive, hv'⟩ := hv
    cases op with
    | ref =>
      have hs1 := ref_of_lookup hw
      have hw1 : tableLookup (ccl_wrapper_ref s a).heap a =
          some { w with ref_count := w.ref_count + 1 } := by
        rw [hs1]
        exact tableLookup_insert_self _ _ _
      have hnd1 : ((ccl_wrapper_ref s a).heap.map Prod.fst).Nodup := by
        rw [hs1]
        show ((tableInsert s.heap a { w with ref_count := w.ref_count + 1 }).map Prod.fst).Nodup
        rw [keys_insert_of_mem _ (mem_keys_of_lookup hw)]
        exact hnd
      have hrc1 : ({ w with ref_count := w.ref_count + 1 } : CCLWrapper).ref_count =
          w.ref_count + 1 := rfl
      have hv2 : rcValidB (ccl_wrapper_ref s a) a sz rf rc ops = true := hv'
      have hres := ih (ccl_wrapper_ref s a) { w with ref_count := w.ref_count + 1 }
        hnd1 hw1 (by rw [hrc1]; omega) hv2
      rw [hrc1] at hres
      simp only [runRC, countRef, countUnref]
      constructor
      · rw [hres.1]
        constructor
        · intro h
          push_cast at h ⊢
          omega
        · intro h
          push_cast at h ⊢
          omega
      · rw [hres.2]
        have hiff : ((countUnref ops : Nat) : Int) = ((countRef ops : Nat) : Int) + (w.ref_count + 1) ↔
            ((countUnref ops : Nat) : Int) = ((countRef ops + 1 : Nat) : Int) + w.ref_count := by
          push_cast
          omega
        rw [if_congr hiff rfl rfl]
    | unref =>
      by_cases hone : w.ref_count - 1 = 0
      · have hu := unref_of_last sz rf rc hw hone
        have hlook : tableLookup (ccl_wrapper_unref s a sz rf rc).state.heap a = none := by
          rw [hu]
          exact tableLookup_remove_self hnd
        have hops : ops = [] := by
          cases ops with
          | nil => rfl
          | cons op' ops' =>
            exfalso
            have hv2 : rcValidB (ccl_wrapper_unref s a sz rf rc).state a sz rf rc
                (op' :: ops') = true := hv'
            simp only [rcValidB, Bool.and_eq_true] at hv2
            have ha := hv2.1
            simp [wrapperAlive, hlook] at ha
        subst hops
        have hdes : (ccl_wrapper_unref s a sz rf rc).destroyed = true := by rw [hu]
        simp only [runRC, countRef, countUnref]
        constructor
        · constructor
          · intro _
            omega
          · intro _
            exact hlook
        · rw [if_pos (by omega : (((0 : Nat) + 1 : Nat) : Int) = ((0 : Nat) : Int) + w.ref_count)]
          rw [hdes]
          rfl
      · have hu := unref_of_pos sz rf rc hw hone
        have hw1 : tableLookup (ccl_wrapper_unref s a sz rf rc).state.heap a =
            some { w with ref_count := w.ref_count - 1 } := by
          rw [hu]
          exact tableLookup_insert_self _ _ _
        have hnd1 : ((ccl_wrapper_unref s a sz rf rc).state.heap.map Prod.fst).Nodup := by
          rw [hu]
          show ((tableInsert s.heap a { w with ref_count := w.ref_count - 1 }).map Prod.fst).Nodup
          rw [keys_insert_of_mem _ (mem_keys_of_lookup hw)]
          exact hnd
        have hrc1 : ({ w with ref_count := w.ref_count - 1 } : CCLWrapper).ref_count =
            w.ref_count - 1 := rfl
        have hv2 : rcValidB (ccl_wrapper_unref s a sz rf rc).state a sz rf rc ops = true := hv'
        have hres := ih (ccl_wrapper_unref s a sz rf rc).state
          { w with ref_count := w.ref_count - 1 } hnd1 hw1 (by rw [hrc1]; omega) hv2
        rw [hrc1] at hres
        have hdes : (ccl_wrapper_unref s a sz rf rc).destroyed = false := by rw [hu]
        simp only [runRC, countRef, countUnref]
        constructor
        · rw [hres.1]
          constructor
          · intro h
            push_cast at h ⊢
            omega
          · intro h
            push_cast at h ⊢
            omega
        · rw [hdes]
          have hcnt : List.count true
              (false :: (runRC (ccl_wrapper_unref s a sz rf rc).state a sz rf rc ops).2) =
              List.count true ((runRC (ccl_wrapper_unref s a sz rf rc).state a sz rf rc ops).2) := by
            simp
          rw [hcnt, hres.2]
          have hiff : ((countUnref ops : Nat) : Int) = ((countRef ops : Nat) : Int) + (w.ref_count - 1) ↔
              ((countUnref ops + 1 : Nat) : Int) = ((countRef ops : Nat) : Int) + w.ref_count := by
            push_cast
            omega
          rw [if_congr hiff rfl rfl]

/-- Claim C2: for any valid sequence of ref/unref calls on a wrapper
constructed with reference count 1, the wrapper is destroyed (freed
from the heap, with `ccl_wrapper_unref` returning CL_TRUE exactly once)
iff the number of unref calls equals the number of ref calls plus one;
unref calls whose decrement does not reach zero return CL_FALSE. -/
theorem wrapper_refcount_conservation (s : WState) (a sz : Nat) (rf : Bool)
    (rc : Option (Nat → Int)) (w : CCLWrapper) (ops : List RCOp)
    (hnd : (s.heap.map Prod.fst).Nodup)
    (hw : tableLookup s.heap a = some w) (h1 : w.ref_count = 1)
    (hv : rcValidB s a sz rf rc ops = true) :
    (tableLookup (runRC s a sz rf rc ops).1.heap a = none ↔
      (countUnref ops : Int) = countRef ops + 1) ∧
    (runRC s a sz rf rc ops).2.count true =
      (if (countUnref ops : Int) = countRef ops + 1 then 1 else 0) := by
  have h := runRC_spec a sz rf rc ops s w hnd hw (by omega) hv
  rw [h1] at h
  exact h

theorem wrapper_refcount_conservation_witness :
    tableLookup (runRC (WState.mk [(0, ⟨7, 1, none⟩)] 1 (some [(7, 0)])) 0 16 false none
        [RCOp.ref, RCOp.unref, RCOp.unref]).1.heap 0 = none ∧
    (runRC (WState.mk [(0, ⟨7, 1, none⟩)] 1 (some [(7, 0)])) 0 16 false none
        [RCOp.ref, RCOp.unref, RCOp.unref]).2.count true = 1 := by
  have h := wrapper_refcount_conservation (WState.mk [(0, ⟨7, 1, none⟩)] 1 (some [(7, 0)]))
    0 16 false none ⟨7, 1, none⟩ [RCOp.ref, RCOp.unref, RCOp.unref]
    (by decide) (by decide) (by decide) (by decide)
  refine ⟨h.1.mpr (by decide), ?_⟩
  rw [h.2]
  decide

/-! ### The registry/heap invariant -/

theorem nodup_append_singleton {l : List Nat} {x : Nat} (hnd : l.Nodup) (hx : x ∉ l) :
    (l ++ [x]).Nodup := by
  induction l with
  | nil => simp
  | cons y ys ih =>
    rw [List.cons_append, List.nodup_cons]
    constructor
    · intro hmem
      rcases List.mem_append.mp hmem with hm | hm
      · exact (List.nodup_cons.mp hnd).1 hm
      · have hyx : y = x := by simpa using hm
        exact hx (List.mem_cons.mpr (Or.inl hyx.symm))
    · exact ih (List.nodup_cons.mp hnd).2 (fun hm => hx (List.mem_cons_of_mem _ hm))

theorem tableInsert_ne_nil {α : Type} (l : List (Nat × α)) (k : Nat) (v : α) :
    tableInsert l k v ≠ [] := by
  cases l with
  | nil => simp [tableInsert]
  | cons p ps =>
    by_cases hk : p.1 = k <;> simp [tableInsert, hk]

theorem winv_init : WInv initState := by
  constructor
  · simp [initState]
  · intro a w h
    simp [initState, tableLookup] at h
  · simp [initState, regTable]
  · intro t ht
    simp [initState] at ht
  · intro _
    rfl
  · intro h a hh
    simp [initState, regTable, tableLookup] at hh
  · intro a w hh
    simp [initState, tableLookup] at hh

theorem winv_update (s : WState) (a : Nat) (w w' : CCLWrapper)
    (hw : tableLookup s.heap a = some w) (hco : w'.cl_object = w.cl_object)
    (hinv : WInv s) :
    WInv { s with heap := tableInsert s.heap a w' } := by
  constructor
  · show ((tableInsert s.heap a w').map Prod.fst).Nodup
    rw [keys_insert_of_mem _ (mem_keys_of_lookup hw)]
    exact hinv.heapNodup
  · intro a' w'' h
    show a' < s.nextAddr
    by_cases ha : a' = a
    · subst ha
      exact hinv.heapBound a' w hw
    · rw [show ({ s with heap := tableInsert s.heap a w' } : WState).heap =
          tableInsert s.heap a w' from rfl] at h
      rw [tableLookup_insert_ne _ _ _ _ ha] at h
      exact hinv.heapBound a' w'' h
  · exact hinv.regNodup
  · intro t ht
    exact hinv.regNonempty t ht
  · intro hn
    exfalso
    have h0 := hinv.noneEmpty hn
    rw [h0] at hw
    simp [tableLookup] at hw
  · intro h0 a0 hh
    have hold := hinv.regToHeap h0 a0 hh
    show (tableLookup (tableInsert s.heap a w') a0).map CCLWrapper.cl_object = some h0
    by_cases ha : a0 = a
    · subst ha
      rw [tableLookup_insert_self]
      rw [hw] at hold
      simp only [Option.map_some'] at hold
      injection hold with hold'
      simp [hco, hold']
    · rw [tableLookup_insert_ne _ _ _ _ ha]
      exact hold
  · intro a0 w0 hh
    have hh' : tableLookup (tableInsert s.heap a w') a0 = some w0 := hh
    show tableLookup (regTable s) w0.cl_object = some a0
    by_cases ha : a0 = a
    · subst ha
      rw [tableLookup_insert_self] at hh'
      injection hh' with hww
      rw [← hww, hco]
      exact hinv.heapToReg a0 w hw
    · rw [tableLookup_insert_ne _ _ _ _ ha] at hh'
      exact hinv.heapToReg a0 w0 hh'

theorem winv_ref (s : WState) (a : Nat) (hinv : WInv s) :
    WInv (ccl_wrapper_ref s a) := by
  cases hw : tableLookup s.heap a with
  | none =>
    simp only [ccl_wrapper_ref, hw]
    exact hinv
  | some w =>
    rw [ref_of_lookup hw]
    exact winv_update s a w _ hw rfl hinv

theorem set_wrappers_regTable_eq {s : WState} {t : List (Nat × Nat)}
    (hsw : s.wrappers = some t) :
    ({ s with wrappers := some (regTable s) } : WState) = s := by
  cases s with
  | mk hp na wr =>
    simp only [regTable] at *
    rw [hsw]

theorem new_of_found {s : WState} {h : Nat} (sz : Nat) {a : Nat}
    (h0 : h ≠ 0) (hl : tableLookup (regTable s) h = some a) :
    ccl_wrapper_new s h sz =
      (some a, ccl_wrapper_ref { s with wrappers := some (regTable s) } a) := by
  simp only [ccl_wrapper_new]
  rw [if_neg h0]
  simp [hl]

theorem new_of_absent {s : WState} {h : Nat} (sz : Nat)
    (h0 : h ≠ 0) (hl : tableLookup (regTable s) h = none) :
    ccl_wrapper_new s h sz =
      (some s.nextAddr,
        ccl_wrapper_ref
          { heap := tableInsert s.heap s.nextAddr
              { cl_object := h, ref_count := 0, info := none }
            nextAddr := s.nextAddr + 1
            wrappers := some (tableInsert (regTable s) h s.nextAddr) } s.nextAddr) := by
  simp only [ccl_wrapper_new]
  rw [if_neg h0]
  simp [hl]

theorem lookup_nextAddr_none {s : WState} (hinv : WInv s) :
    tableLookup s.heap s.nextAddr = none := by
  cases hx : tableLookup s.heap s.nextAddr with
  | none => rfl
  | some w =>
    have := hinv.heapBound _ _ hx
    omega

theorem winv_new (s : WState) (h sz : Nat) (hinv : WInv s) :
    WInv (ccl_wrapper_new s h sz).2 := by
  by_cases h0 : h = 0
  · simp only [ccl_wrapper_new, h0, if_pos]
    exact hinv
  · cases hl : tableLookup (regTable s) h with
    | some a =>
      rw [new_of_found sz h0 hl]
      cases hsw : s.wrappers with
      | none =>
        exfalso
        have : regTable s = [] := by simp [regTable, hsw]
        rw [this] at hl
        simp [tableLookup] at hl
      | some t =>
        rw [set_wrappers_regTable_eq hsw]
        exact winv_ref s a hinv
    | none =>
      rw [new_of_absent sz h0 hl]
      have hnl := lookup_nextAddr_none hinv
      have hkey : s.nextAddr ∉ s.heap.map Prod.fst :=
        (tableLookup_eq_none_iff _ _).mp hnl
      have hregkey : h ∉ (regTable s).map Prod.fst :=
        (tableLookup_eq_none_iff _ _).mp hl
      apply winv_ref
      constructor
      · show ((tableInsert s.heap s.nextAddr
            { cl_object := h, ref_count := 0, info := none }).map Prod.fst).Nodup
        rw [keys_insert_of_not_mem _ hkey]
        exact nodup_append_singleton hinv.heapNodup hkey
      · intro a' w' hlk
        show a' < s.nextAddr + 1
        by_cases ha : a' = s.nextAddr
        · omega
        · have hlk' : tableLookup (tableInsert s.heap s.nextAddr
              { cl_object := h, ref_count := 0, info := none }) a' = some w' := hlk
          rw [tableLookup_insert_ne _ _ _ _ ha] at hlk'
          have := hinv.heapBound a' w' hlk'
          omega
      · show ((tableInsert (regTable s) h s.nextAddr).map Prod.fst).Nodup
        rw [keys_insert_of_not_mem _ hregkey]
        exact nodup_append_singleton hinv.regNodup hregkey
      · intro t ht
        injection ht with ht'
        rw [← ht']
        exact tableInsert_ne_nil _ _ _
      · intro hn
        cases hn
      · intro h1 a1 hh
        have hh' : tableLookup (tableInsert (regTable s) h s.nextAddr) h1 = some a1 := hh
        show (tableLookup (tableInsert s.heap s.nextAddr
          { cl_object := h, ref_count := 0, info := none }) a1).map CCLWrapper.cl_object
            = some h1
        by_cases hh1 : h1 = h
        · subst hh1
          rw [tableLookup_insert_self] at hh'
          injection hh' with ha1
          rw [← ha1]
          rw [tableLookup_insert_self]
          rfl
        · rw [tableLookup_insert_ne _ _ _ _ hh1] at hh'
          have hmap := hinv.regToHeap h1 a1 hh'
          have ha1 : a1 ≠ s.nextAddr := by
            intro he
            rw [he, hnl] at hmap
            simp at hmap
          rw [tableLookup_insert_ne _ _ _ _ ha1]
          exact hmap
      · intro a1 w1 hh
        have hh' : tableLookup (tableInsert s.heap s.nextAddr
            { cl_object := h, ref_count := 0, info := none }) a1 = some w1 := hh
        show tableLookup (tableInsert (regTable s) h s.nextAddr) w1.cl_object = some a1
        by_cases ha : a1 = s.nextAddr
        · subst ha
          rw [tableLookup_insert_self] at hh'
          injection hh' with hw1
          rw [← hw1]
          rw [tableLookup_insert_self]
        · rw [tableLookup_insert_ne _ _ _ _ ha] at hh'
          have hr1 := hinv.heapToReg a1 w1 hh'
          have hcl : w1.cl_object ≠ h := by
            intro he
            rw [he, hl] at hr1
            cases hr1
          rw [tableLookup_insert_ne _ _ _ _ hcl]
          exact hr1

theorem winv_unref (s : WState) (a sz : Nat) (rf : Bool) (rc : Option (Nat → Int))
    (hinv : WInv s) :
    WInv (ccl_wrapper_unref s a sz rf rc).state := by
  cases hw : tableLookup s.heap a with
  | none =>
    simp only [ccl_wrapper_unref, hw]
    exact hinv
  | some w =>
    by_cases hone : w.ref_count - 1 = 0
    · rw [unref_of_last sz rf rc hw hone]
      have hreg : tableLookup (regTable s) w.cl_object = some a := hinv.heapToReg a w hw
      constructor
      · show ((tableRemove s.heap a).map Prod.fst).Nodup
        exact List.Nodup.sublist (keys_tableRemove_sublist _ _) hinv.heapNodup
      · intro a' w' hlk
        show a' < s.nextAddr
        have hlk' : tableLookup (tableRemove s.heap a) a' = some w' := hlk
        obtain ⟨hold, _⟩ := tableLookup_of_remove hinv.heapNodup hlk'
        exact hinv.heapBound a' w' hold
      · by_cases hlen : (tableRemove (regTable s) w.cl_object).length = 0
        · rw [if_pos hlen]
          exact List.nodup_nil
        · rw [if_neg hlen]
          show ((tableRemove (regTable s) w.cl_object).map Prod.fst).Nodup
          exact List.Nodup.sublist (keys_tableRemove_sublist _ _) hinv.regNodup
      · intro t ht
        by_cases hlen : (tableRemove (regTable s) w.cl_object).length = 0
        · rw [if_pos hlen] at ht
          cases ht
        · rw [if_neg hlen] at ht
          injection ht with ht'
          intro he
          rw [ht', he] at hlen
          exact hlen rfl
      · intro hn
        show tableRemove s.heap a = []
        by_cases hlen : (tableRemove (regTable s) w.cl_object).length = 0
        · by_contra hne
          obtain ⟨a', w', hlk⟩ := exists_tableLookup_of_ne_nil hne
          obtain ⟨hold, hne'⟩ := tableLookup_of_remove hinv.heapNodup hlk
          have hr' := hinv.heapToReg a' w' hold
          by_cases hcl : w'.cl_object = w.cl_object
          · rw [hcl, hreg] at hr'
            injection hr' with he
            exact hne' he.symm
          · have hlk2 : tableLookup (tableRemove (regTable s) w.cl_object) w'.cl_object
                = some a' := by
              rw [tableLookup_remove_ne _ _ _ hcl]
              exact hr'
            rw [List.length_eq_zero.mp hlen] at hlk2
            simp [tableLookup] at hlk2
        · rw [if_neg hlen] at hn
          cases hn
      · intro h0 a0 hh
        by_cases hlen : (tableRemove (regTable s) w.cl_object).length = 0
        · rw [if_pos hlen] at hh
          have hh' : tableLookup ([] : List (Nat × Nat)) h0 = some a0 := hh
          simp [tableLookup] at hh'
        · rw [if_neg hlen] at hh
          have hh' : tableLookup (tableRemove (regTable s) w.cl_object) h0 = some a0 := hh
          obtain ⟨hold, hne0⟩ := tableLookup_of_remove hinv.regNodup hh'
          have hmap := hinv.regToHeap h0 a0 hold
          by_cases ha0 : a0 = a
          · exfalso
            subst ha0
            rw [hw] at hmap
            simp only [Option.map_some'] at hmap
            injection hmap with hmap'
            exact hne0 hmap'.symm
          · show (tableLookup (tableRemove s.heap a) a0).map CCLWrapper.cl_object = some h0
            rw [tableLookup_remove_ne _ _ _ ha0]
            exact hmap
      · intro a0 w0 hh
        have hh' : tableLookup (tableRemove s.heap a) a0 = some w0 := hh
        obtain ⟨hold, hne0⟩ := tableLookup_of_remove hinv.heapNodup hh'
        have hr0 := hinv.heapToReg a0 w0 hold
        have hcl : w0.cl_object ≠ w.cl_object := by
          intro he
          rw [he, hreg] at hr0
          injection hr0 with he'
          exact hne0 he'.symm
        have hlk' : tableLookup (tableRemove (regTable s) w.cl_object) w0.cl_object
            = some a0 := by
          rw [tableLookup_remove_ne _ _ _ hcl]
          exact hr0
        by_cases hlen : (tableRemove (regTable s) w.cl_object).length = 0
        · exfalso
          rw [List.length_eq_zero.mp hlen] at hlk'
          simp [tableLookup] at hlk'
        · rw [if_neg hlen]
          exact hlk'
    · rw [unref_of_pos sz rf rc hw hone]
      exact winv_update s a w _ hw rfl hinv

theorem get_info_cl_object (w1 : CCLWrapper) (w2 : Option CCLWrapper) (p : Nat)
    (f : InfoFun) (uc : Bool) :
    ((ccl_wrapper_get_info w1 w2 p f uc).wrapper).cl_object = w1.cl_object := by
  rcases get_info_cases w1 w2 p f uc with ⟨_, he⟩ | ⟨_, he⟩ | ⟨_, _, he⟩ <;>
    rw [he] <;> rfl

theorem winv_applyOp (s : WState) (op : COp) (hinv : WInv s) :
    WInv (applyOp s op) := by
  cases op with
  | newW h sz2 => exact winv_new s h sz2 hinv
  | refW a => exact winv_ref s a hinv
  | unrefW a sz2 rf rc => exact winv_unref s a sz2 rf rc hinv
  | getInfoW a a2 p f uc =>
    simp only [applyOp]
    cases hw : tableLookup s.heap a with
    | none => exact hinv
    | some w1 =>
      exact winv_update s a w1 _ hw (get_info_cl_object w1 _ p f uc) hinv
  | addInfoW a p i =>
    simp only [applyOp]
    cases hw : tableLookup s.heap a with
    | none => exact hinv
    | some w =>
      exact winv_update s a w _ hw rfl hinv

theorem winv_runOps (ops : List COp) : WInv (runOps ops) := by
  suffices h : ∀ s, WInv s → WInv (ops.foldl applyOp s) from h initState winv_init
  induction ops with
  | nil =>
    intro s hs
    exact hs
  | cons op ops ih =>
    intro s hs
    exact ih _ (winv_applyOp s op hs)

/-- Claim C8: `ccl_wrapper_memcheck` is CL_TRUE exactly when no wrapper
of any kind is alive: in every state reachable by a sequence of module
calls from the initial state, the static `wrappers` table is NULL iff
the heap of allocated wrapper objects is empty (the table is created by
the first construction and destroyed by the unref removing the last
wrapper). -/
theorem memcheck_iff_no_live_wrappers (ops : List COp) :
    ccl_wrapper_memcheck (runOps ops) = true ↔ (runOps ops).heap = [] := by
  have hinv := winv_runOps ops
  constructor
  · intro h
    apply hinv.noneEmpty
    simpa [ccl_wrapper_memcheck, Option.isNone_iff_eq_none] using h
  · intro h
    cases hsw : (runOps ops).wrappers with
    | none => simp [ccl_wrapper_memcheck, hsw]
    | some t =>
      exfalso
      have hne := hinv.regNonempty t hsw
      obtain ⟨k, v, hk⟩ := exists_tableLookup_of_ne_nil hne
      have hrt : regTable (runOps ops) = t := by simp [regTable, hsw]
      have hmap := hinv.regToHeap k v (by rw [hrt]; exact hk)
      rw [h] at hmap
      simp [tableLookup] at hmap

/-- Claim C1: for a non-NULL `cl_object`, `ccl_wrapper_new` returns the
address of the already-registered wrapper with its reference count
incremented when one exists, and otherwise registers and returns a
fresh zero-allocated wrapper with that `cl_object` and reference count
1; in every reachable state the registry has no two entries for the
same `cl_object`. -/
theorem wrapper_new_find_or_create :
    (∀ (s : WState) (h sz : Nat), h ≠ 0 → WInv s →
      (∀ a, tableLookup (regTable s) h = some a →
        (ccl_wrapper_new s h sz).1 = some a ∧
        (ccl_wrapper_new s h sz).2.wrappers = s.wrappers ∧
        tableLookup ((ccl_wrapper_new s h sz).2).heap a =
          (tableLookup s.heap a).map (fun w => { w with ref_count := w.ref_count + 1 })) ∧
      (tableLookup (regTable s) h = none →
        (ccl_wrapper_new s h sz).1 = some s.nextAddr ∧
        tableLookup s.heap s.nextAddr = none ∧
        tableLookup ((ccl_wrapper_new s h sz).2).heap s.nextAddr =
          some { cl_object := h, ref_count := 1, info := none } ∧
        tableLookup (regTable ((ccl_wrapper_new s h sz).2)) h = some s.nextAddr) ∧
      ((regTable ((ccl_wrapper_new s h sz).2)).map Prod.fst).Nodup) ∧
    (∀ ops : List COp, ((regTable (runOps ops)).map Prod.fst).Nodup) := by
  constructor
  · intro s h sz h0 hinv
    refine ⟨?_, ?_, (winv_new s h sz hinv).regNodup⟩
    · intro a hl
      rw [new_of_found sz h0 hl]
      cases hsw : s.wrappers with
      | none =>
        exfalso
        have : regTable s = [] := by simp [regTable, hsw]
        rw [this] at hl
        simp [tableLookup] at hl
      | some t =>
        rw [set_wrappers_regTable_eq hsw]
        have hmap := hinv.regToHeap h a hl
        obtain ⟨w, hwl, hwc⟩ : ∃ w, tableLookup s.heap a = some w ∧ w.cl_object = h := by
          cases hx : tableLookup s.heap a with
          | none =>
            rw [hx] at hmap
            cases hmap
          | some w =>
            rw [hx] at hmap
            simp only [Option.map_some'] at hmap
            injection hmap with hmap'
            exact ⟨w, rfl, hmap'⟩
        refine ⟨rfl, ?_, ?_⟩
        · rw [ref_of_lookup hwl]
          exact hsw
        · rw [ref_of_lookup hwl]
          show tableLookup (tableInsert s.heap a { w with ref_count := w.ref_count + 1 }) a =
            (tableLookup s.heap a).map (fun w => { w with ref_count := w.ref_count + 1 })
          rw [tableLookup_insert_self, hwl]
          rfl
    · intro hl
      rw [new_of_absent sz h0 hl]
      have hnl := lookup_nextAddr_none hinv
      refine ⟨rfl, hnl, ?_, ?_⟩
      · have hw0 : tableLookup (tableInsert s.heap s.nextAddr
            { cl_object := h, ref_count := 0, info := none }) s.nextAddr =
            some { cl_object := h, ref_count := 0, info := none } :=
          tableLookup_insert_self _ _ _
        rw [ref_of_lookup hw0]
        show tableLookup (tableInsert (tableInsert s.heap s.nextAddr
            { cl_object := h, ref_count := 0, info := none }) s.nextAddr
            { cl_object := h, ref_count := (0 : Int) + 1, info := none }) s.nextAddr = _
        rw [tableLookup_insert_self]
        rfl
      · have hw0 : tableLookup (tableInsert s.heap s.nextAddr
            { cl_object := h, ref_count := 0, info := none }) s.nextAddr =
            some { cl_object := h, ref_count := 0, info := none } :=
          tableLookup_insert_self _ _ _
        rw [ref_of_lookup hw0]
        show tableLookup (tableInsert (regTable s) h s.nextAddr) h = some s.nextAddr
        rw [tableLookup_insert_self]
  · intro ops
    exact (winv_runOps ops).regNodup

theorem wrapper_new_find_or_create_witness :
    (1 : Nat) ≠ 0 ∧
    (ccl_wrapper_new initState 1 16).1 = some 0 ∧
    tableLookup ((ccl_wrapper_new initState 1 16).2).heap 0 =
      some { cl_object := 1, ref_count := 1, info := none } ∧
    tableLookup (regTable ((ccl_wrapper_new initState 1 16).2)) 1 = some 0 := by
  have h := (wrapper_new_find_or_create.1 initState 1 16 (by decide) winv_init).2.1
    (by decide)
  exact ⟨by decide, h.1, h.2.2.1, h.2.2.2⟩
